import Mathlib

/-!
Shallow embedding of the Autofill-Assistant field-classification pipeline,
covering `src/lib/field-mapper/field-mapper.js` (RuleSet, HeuristicScorer,
PatternMatcher, orchestrator `mapFields`) and `src/lib/llm/gemini-client.js`
(rate limiter, response cache, `analyzeFields`, fallback analysis).

Field descriptors are modelled as records with string attributes (the content
script builds them with `element.name || ''` and friends, so the attributes
are always strings); attributes that the pipeline may leave `undefined`
(`purpose`, `confidence`, `mappingMethod`, `llmReasoning`) are `Option`s.
JS numbers carrying confidences are modelled as exact rationals, written with
`mkRat` throughout. Timestamps (`Date.now()`) are naturals; JS number
subtraction compared against a positive threshold decides exactly as
truncated `Nat` subtraction does, since `a - b > c ↔ a > b + c` for `c ≥ 0`.
-/

/-- Lower-casing as performed by `toLowerCase` in the sources (ASCII case
folding applied per character). -/
def jsLower (s : String) : String := ⟨s.data.map Char.toLower⟩

/-- JS `haystack.includes(needle)` for strings. -/
def jsIncludes (haystack needle : String) : Bool :=
  haystack.data.tails.any (fun t => needle.data.isPrefixOf t)

/-- JS `Math.min` on two (non-NaN) numbers. -/
def jsMin (a b : Rat) : Rat := if a ≤ b then a else b

/-- JS `Math.max` on two (non-NaN) numbers. -/
def jsMax (a b : Rat) : Rat := if a ≤ b then b else a

/-- JS `x || d` for a possibly-undefined string `x`: the default is used when
`x` is `undefined` or the empty string (the only falsy strings). -/
def jsOrString (o : Option String) (d : String) : String :=
  match o with
  | none => d
  | some s => if s = "" then d else s

/-- JS `x || d` for a possibly-undefined number `x`: the default is used when
`x` is `undefined` or `0`. -/
def jsOrRat (o : Option Rat) (d : Rat) : Rat :=
  match o with
  | none => d
  | some x => if x = mkRat 0 1 then d else x

/-- One extracted form-field descriptor, as built by the content script and
consumed by `mapFields` / `analyzeFields`. -/
structure FieldInfo where
  type : String
  name : String
  id : String
  placeholder : String
  label : String
  required : Bool
  purpose : Option String
  confidence : Option Rat
  mappingMethod : Option String
  needsLLMAnalysis : Bool
  needsManualReview : Bool
  llmReasoning : Option String
deriving DecidableEq

/-- A blank descriptor (all string attributes empty except a text `type`),
used to build concrete test fields. -/
def baseField : FieldInfo :=
  ⟨"text", "", "", "", "", false, none, none, none, false, false, none⟩

/-- The `ATS_FIELD_RULES` table: platform, then purpose, then the ordered CSS
selector list, exactly as declared in field-mapper.js. -/
def ATS_FIELD_RULES : List (String × List (String × List String)) := [
  ("workday", [
    ("firstName", ["[data-automation-id*=\"firstName\"]",
      "[data-automation-id*=\"first_name\"]",
      "input[name*=\"firstName\"]", "input[name*=\"first_name\"]"]),
    ("lastName", ["[data-automation-id*=\"lastName\"]",
      "[data-automation-id*=\"last_name\"]",
      "input[name*=\"lastName\"]", "input[name*=\"last_name\"]"]),
    ("email", ["[data-automation-id*=\"email\"]", "input[name*=\"email\"]",
      "input[type=\"email\"]"]),
    ("phone", ["[data-automation-id*=\"phone\"]", "input[name*=\"phone\"]",
      "input[type=\"tel\"]"]),
    ("address", ["[data-automation-id*=\"address\"]", "input[name*=\"address\"]"]),
    ("city", ["[data-automation-id*=\"city\"]", "input[name*=\"city\"]"]),
    ("state", ["[data-automation-id*=\"state\"]",
      "[data-automation-id*=\"province\"]",
      "select[name*=\"state\"]", "select[name*=\"province\"]"]),
    ("zipCode", ["[data-automation-id*=\"zip\"]",
      "[data-automation-id*=\"postal\"]",
      "input[name*=\"zip\"]", "input[name*=\"postal\"]"]),
    ("country", ["[data-automation-id*=\"country\"]", "select[name*=\"country\"]"])]),
  ("greenhouse", [
    ("firstName", ["input[name=\"job_application[first_name]\"]",
      "input[name*=\"first_name\"]", "#first_name"]),
    ("lastName", ["input[name=\"job_application[last_name]\"]",
      "input[name*=\"last_name\"]", "#last_name"]),
    ("email", ["input[name=\"job_application[email]\"]",
      "input[name*=\"email\"]", "input[type=\"email\"]"]),
    ("phone", ["input[name=\"job_application[phone]\"]",
      "input[name*=\"phone\"]", "input[type=\"tel\"]"]),
    ("resumeUpload", ["input[name=\"job_application[resume]\"]",
      "input[type=\"file\"][name*=\"resume\"]"]),
    ("coverLetterUpload", ["input[name=\"job_application[cover_letter]\"]",
      "input[type=\"file\"][name*=\"cover\"]"])]),
  ("lever", [
    ("firstName", ["input[name=\"name\"]", "input[name*=\"first\"]",
      ".application-question input[placeholder*=\"First\"]"]),
    ("lastName", ["input[name*=\"last\"]",
      ".application-question input[placeholder*=\"Last\"]"]),
    ("email", ["input[name=\"email\"]", "input[type=\"email\"]"]),
    ("phone", ["input[name=\"phone\"]", "input[type=\"tel\"]"]),
    ("resumeUpload", ["input[name=\"resume\"]", "input[type=\"file\"]"])]),
  ("icims", [
    ("firstName", ["input[name*=\"firstName\"]", "input[id*=\"firstName\"]"]),
    ("lastName", ["input[name*=\"lastName\"]", "input[id*=\"lastName\"]"]),
    ("email", ["input[name*=\"email\"]", "input[type=\"email\"]"]),
    ("phone", ["input[name*=\"phone\"]", "input[type=\"tel\"]"])]),
  ("taleo", [
    ("firstName", ["input[name*=\"firstName\"]", "input[name*=\"first_name\"]"]),
    ("lastName", ["input[name*=\"lastName\"]", "input[name*=\"last_name\"]"]),
    ("email", ["input[name*=\"email\"]"]),
    ("phone", ["input[name*=\"phone\"]"])])]

/-- `mapFieldByATS`: for the platform's rule table, return the first purpose
one of whose selectors matches the field; `"unknown"` when the platform has no
table or nothing matches. Selector matching (`matchesSelector`) runs live DOM
queries, so it is abstracted as the `matches` parameter. -/
def mapFieldByATS (selMatches : FieldInfo → String → Bool) (field : FieldInfo)
    (atsType : String) : String :=
  match ATS_FIELD_RULES.lookup atsType with
  | none => "unknown"
  | some atsRules =>
    match atsRules.find? (fun pr => pr.2.any (fun selector => selMatches field selector)) with
    | some pr => pr.1
    | none => "unknown"

/-- One entry of the `HEURISTIC_PATTERNS` table. -/
structure HeuristicPattern where
  names : List String
  ids : List String
  placeholders : List String
  labels : List String
  types : List String
deriving DecidableEq

/-- The `HEURISTIC_PATTERNS` table, in declaration order. -/
def HEURISTIC_PATTERNS : List (String × HeuristicPattern) := [
  ("firstName", ⟨["firstname", "first_name", "first-name", "fname", "forename", "givenname"],
    ["firstname", "first_name", "first-name", "fname"],
    ["first name", "given name", "forename"],
    ["first name", "given name", "forename", "prénom"],
    ["text"]⟩),
  ("lastName", ⟨["lastname", "last_name", "last-name", "lname", "surname", "familyname"],
    ["lastname", "last_name", "last-name", "lname"],
    ["last name", "surname", "family name"],
    ["last name", "surname", "family name", "nom de famille"],
    ["text"]⟩),
  ("fullName", ⟨["name", "full_name", "fullname", "full-name", "completename"],
    ["name", "full_name", "fullname"],
    ["full name", "your name", "name"],
    ["full name", "name", "your name", "nom complet"],
    ["text"]⟩),
  ("email", ⟨["email", "email_address", "email-address", "emailaddress", "mail"],
    ["email", "email_address", "email-address"],
    ["email", "email address", "your email", "e-mail"],
    ["email", "email address", "e-mail address"],
    ["email", "text"]⟩),
  ("phone", ⟨["phone", "phone_number", "phone-number", "phonenumber", "telephone", "mobile", "cell"],
    ["phone", "phone_number", "telephone"],
    ["phone", "phone number", "telephone", "mobile", "cell phone"],
    ["phone", "phone number", "telephone", "mobile number"],
    ["tel", "text"]⟩),
  ("address", ⟨["address", "street_address", "street-address", "streetaddress", "addr"],
    ["address", "street_address", "street-address"],
    ["address", "street address", "your address"],
    ["address", "street address", "home address"],
    ["text"]⟩),
  ("city", ⟨["city", "town", "locality"],
    ["city", "town"],
    ["city", "town"],
    ["city", "town", "locality"],
    ["text"]⟩),
  ("state", ⟨["state", "province", "region", "state_province"],
    ["state", "province", "region"],
    ["state", "province", "region"],
    ["state", "province", "state/province", "region"],
    ["text", "select-one"]⟩),
  ("zipCode", ⟨["zip", "zipcode", "zip_code", "postal", "postalcode", "postal_code"],
    ["zip", "zipcode", "postal"],
    ["zip", "zip code", "postal code"],
    ["zip code", "postal code", "zip"],
    ["text"]⟩),
  ("country", ⟨["country", "nation"],
    ["country"],
    ["country"],
    ["country", "nation"],
    ["select-one", "text"]⟩),
  ("currentTitle", ⟨["title", "job_title", "position", "current_title", "role"],
    ["title", "job_title", "position"],
    ["job title", "current title", "position", "role"],
    ["job title", "current title", "position", "current position"],
    ["text"]⟩),
  ("currentCompany", ⟨["company", "employer", "current_company", "organization"],
    ["company", "employer"],
    ["company", "employer", "current company"],
    ["company", "employer", "current employer", "organization"],
    ["text"]⟩),
  ("yearsExperience", ⟨["experience", "years_experience", "experience_years"],
    ["experience", "years_experience"],
    ["years of experience", "experience"],
    ["years of experience", "experience", "work experience"],
    ["number", "text", "select-one"]⟩),
  ("desiredSalary", ⟨["salary", "desired_salary", "expected_salary", "compensation"],
    ["salary", "desired_salary"],
    ["desired salary", "expected salary", "salary"],
    ["desired salary", "expected salary", "salary expectations"],
    ["number", "text"]⟩),
  ("availableStartDate", ⟨["start_date", "available_date", "availability"],
    ["start_date", "available_date"],
    ["start date", "available date", "when can you start"],
    ["start date", "availability", "when can you start"],
    ["date", "text"]⟩),
  ("resumeUpload", ⟨["resume", "cv", "curriculum"],
    ["resume", "cv"],
    [],
    ["resume", "cv", "curriculum vitae"],
    ["file"]⟩),
  ("coverLetterUpload", ⟨["cover_letter", "coverletter", "cover"],
    ["cover_letter", "coverletter"],
    [],
    ["cover letter", "covering letter"],
    ["file"]⟩)]

/-- The lower-cased haystack built by `mapFieldByHeuristics`:
name, id, placeholder and label joined by single spaces. -/
def heuristicFieldText (field : FieldInfo) : String :=
  jsLower (field.name ++ " " ++ field.id ++ " " ++ field.placeholder ++ " " ++ field.label)

/-- The raw score of one purpose: matching name, placeholder and label
substrings, plus 1 when the field type is among the accepted types. The `ids`
group is declared in the table but never inspected by `mapFieldByHeuristics`. -/
def heuristicScore (field : FieldInfo) (patterns : HeuristicPattern) : Nat :=
  let fieldText := heuristicFieldText field
  (patterns.names.filter (fun n => jsIncludes fieldText (jsLower n))).length
  + (patterns.placeholders.filter (fun p => jsIncludes fieldText (jsLower p))).length
  + (patterns.labels.filter (fun l => jsIncludes fieldText (jsLower l))).length
  + (if patterns.types.contains field.type then 1 else 0)

/-- The maximal score of one purpose: the total predicate count of the four
groups consulted by the scorer. -/
def heuristicMaxScore (patterns : HeuristicPattern) : Nat :=
  patterns.names.length + patterns.placeholders.length
  + patterns.labels.length + patterns.types.length

/-- Confidence of one purpose for one field: `score / maxScore` (0 when the
purpose has no predicates). -/
def heuristicConfidence (field : FieldInfo) (patterns : HeuristicPattern) : Rat :=
  if 0 < heuristicMaxScore patterns then
    mkRat (heuristicScore field patterns) (heuristicMaxScore patterns)
  else mkRat 0 1

/-- Result record returned by `mapFieldByHeuristics`. -/
structure HeuristicResult where
  purpose : String
  confidence : Rat
deriving DecidableEq

/-- The scan of `mapFieldByHeuristics` over (a suffix of) the purpose table:
the first purpose whose confidence exceeds 0.3 is returned, its confidence
capped at 0.8. -/
def mapFieldByHeuristicsLoop (field : FieldInfo) :
    List (String × HeuristicPattern) → HeuristicResult
  | [] => ⟨"unknown", mkRat 0 1⟩
  | (purpose, patterns) :: rest =>
    let confidence := heuristicConfidence field patterns
    if mkRat 3 10 < confidence then ⟨purpose, jsMin confidence (mkRat 8 10)⟩
    else mapFieldByHeuristicsLoop field rest

/-- `mapFieldByHeuristics` from field-mapper.js. -/
def mapFieldByHeuristics (field : FieldInfo) : HeuristicResult :=
  mapFieldByHeuristicsLoop field HEURISTIC_PATTERNS

/-- JS line terminators, which `.` in a regular expression without the `s`
flag does not match. -/
def isJsLineTerminator (c : Char) : Bool :=
  c == '\n' || c == '\r' || c.toNat == 8232 || c.toNat == 8233

/-- A gap consumed by `.*` may contain anything except line terminators. -/
def dotStarGapOk (s : List Char) : Bool := s.all (fun c => !isJsLineTerminator c)

/-- Continuation of matching a chain of literal words separated by `.*`: each
following word must occur after a line-terminator-free gap. -/
def regexChainMatch : List (List Char) → List Char → Bool
  | [], _ => true
  | w :: ws, s =>
    (List.range (s.length + 1)).any (fun i =>
      dotStarGapOk (s.take i) && w.isPrefixOf (s.drop i)
        && regexChainMatch ws ((s.drop i).drop w.length))

/-- Unanchored `RegExp.test` for a pattern of the shape `w1.*w2.*…*wn` (the
only shape occurring in `QUESTION_PATTERNS`): the match may start anywhere,
and the inter-word gaps are `.*` gaps. The patterns carry the `i` flag; the
caller lower-cases the subject and the pattern words are already lower-case. -/
def questionRegexMatches (words : List String) (text : String) : Bool :=
  match words.map String.data with
  | [] => true
  | w :: rest =>
    (List.range (text.data.length + 1)).any (fun i =>
      w.isPrefixOf (text.data.drop i)
        && regexChainMatch rest ((text.data.drop i).drop w.length))

/-- The `QUESTION_PATTERNS` table: purpose, then the ordered list of regular
expressions, each given by its chain of literal words. -/
def QUESTION_PATTERNS : List (String × List (List String)) := [
  ("whyInterested", [["why", "interested"], ["why", "want", "work"],
    ["why", "apply"], ["why", "company"], ["motivation", "position"]]),
  ("whyQualified", [["why", "qualified"], ["why", "right", "candidate"],
    ["what", "makes", "qualified"], ["relevant", "experience"]]),
  ("careerGoals", [["career", "goals"], ["professional", "goals"],
    ["future", "plans"], ["where", "see", "yourself"]]),
  ("greatestStrength", [["greatest", "strength"], ["biggest", "strength"],
    ["key", "strength"], ["what", "strength"]]),
  ("greatestWeakness", [["greatest", "weakness"], ["biggest", "weakness"],
    ["area", "improvement"], ["what", "weakness"]])]

/-- `mapFieldByQuestionPatterns` from field-mapper.js: the subject string is
the lower-cased label followed by the placeholder, and the first purpose with
any matching expression wins. -/
def mapFieldByQuestionPatterns (field : FieldInfo) : String :=
  let questionText := jsLower (field.label ++ " " ++ field.placeholder)
  match QUESTION_PATTERNS.find? (fun pr =>
      pr.2.any (fun pattern => questionRegexMatches pattern questionText)) with
  | some pr => pr.1
  | none => "unknown"

/-- First question-pattern purpose matching a given subject string (the
pattern-table scan of `mapFieldByQuestionPatterns`, detached from the choice
of subject text). -/
def firstQuestionPatternMatch (text : String) : String :=
  match QUESTION_PATTERNS.find? (fun pr =>
      pr.2.any (fun pattern => questionRegexMatches pattern text)) with
  | some pr => pr.1
  | none => "unknown"

/-- Modelled from the claim wording (C4), for comparison with the source
function: the pattern stage applied to the lower-cased concatenation of the
field name, id, placeholder and label. -/
def claimedQuestionPatternsAllText (field : FieldInfo) : String :=
  firstQuestionPatternMatch
    (jsLower (field.name ++ " " ++ field.id ++ " " ++ field.placeholder ++ " " ++ field.label))

/-- Effect of `scheduleLLMAnalysis` on one mapped field object: fields flagged
for LLM analysis are additionally marked for manual review (the returned array
of `mapFields` holds these same mutated objects). -/
def markManualReview (field : FieldInfo) : FieldInfo :=
  if field.needsLLMAnalysis then { field with needsManualReview := true } else field

/-- The per-field callback of `mapFields`, with the heuristic and
question-pattern stages taken as parameters (instantiated with the real stage
functions in `mapFields`; keeping them parametric lets us state that a field
resolved by the ATS stage is independent of the later stages). Note the
source guards the heuristic branch with `heuristicMapping !== 'unknown'`, but
`mapFieldByHeuristics` always returns a result object and an object is never
strictly equal to a string, so that guard is always true; the question-pattern
and `none` branches below are therefore unreachable. -/
def mapOneFieldWith (selMatches : FieldInfo → String → Bool)
    (heur : FieldInfo → HeuristicResult) (pat : FieldInfo → String)
    (atsType : String) (field : FieldInfo) : FieldInfo :=
  let atsMapping := mapFieldByATS selMatches field atsType
  if atsMapping ≠ "unknown" then
    { field with
      purpose := some atsMapping
      confidence := some (mkRat 9 10)
      mappingMethod := some "ats-specific" }
  else
    let heuristicMapping := heur field
    let heuristicNotUnknown := true
    if heuristicNotUnknown then
      { field with
        purpose := some heuristicMapping.purpose
        confidence := some heuristicMapping.confidence
        mappingMethod := some "heuristic" }
    else
      let questionMapping := pat field
      if questionMapping ≠ "unknown" then
        { field with
          purpose := some questionMapping
          confidence := some (mkRat 7 10)
          mappingMethod := some "question-pattern" }
      else
        { field with
          purpose := some (jsOrString field.purpose "unknown")
          confidence := some (mkRat 0 1)
          mappingMethod := some "none"
          needsLLMAnalysis := true }

/-- `mapFields` with parametric heuristic and question-pattern stages: map
every field through the staged callback, then apply the `scheduleLLMAnalysis`
marking to the fields needing LLM analysis. -/
def mapFieldsWith (selMatches : FieldInfo → String → Bool)
    (heur : FieldInfo → HeuristicResult) (pat : FieldInfo → String)
    (fields : List FieldInfo) (atsType : String) : List FieldInfo :=
  let mappedFields := fields.map (mapOneFieldWith selMatches heur pat atsType)
  mappedFields.map markManualReview

/-- `mapFields` from field-mapper.js (selector matching abstracted). -/
def mapFields (selMatches : FieldInfo → String → Bool)
    (fields : List FieldInfo) (atsType : String) : List FieldInfo :=
  mapFieldsWith selMatches mapFieldByHeuristics mapFieldByQuestionPatterns fields atsType

/-- The complete per-field transformation realised by `mapFields`. -/
def mapFieldsResult (selMatches : FieldInfo → String → Bool) (atsType : String)
    (field : FieldInfo) : FieldInfo :=
  markManualReview
    (mapOneFieldWith selMatches mapFieldByHeuristics mapFieldByQuestionPatterns atsType field)

/-- `RATE_LIMIT.requestsPerMinute` from gemini-client.js. -/
def RATE_requestsPerMinute : Nat := 60

/-- `RATE_LIMIT.requestsPerDay` from gemini-client.js. -/
def RATE_requestsPerDay : Nat := 1500

/-- Minimum milliseconds between requests: `(60 * 1000) / requestsPerMinute`. -/
def RATE_minInterval : Nat := 60 * 1000 / RATE_requestsPerMinute

/-- `CACHE.maxSize` from gemini-client.js. -/
def CACHE_maxSize : Nat := 100

/-- `CACHE.ttl` from gemini-client.js: 24 hours in milliseconds. -/
def CACHE_ttl : Nat := 24 * 60 * 60 * 1000

/-- The mutable `RATE_LIMIT` counters. -/
structure RateLimitState where
  lastRequestTime : Nat
  dailyUsage : Nat
  dailyResetTime : Nat
deriving DecidableEq

/-- `canMakeRequest`: resets the daily counter when the daily window has aged
past 24 hours (a mutation of the shared state, hence the returned record),
then denies on the daily cap, otherwise admits iff the time since the last
request reaches the per-minute interval. -/
def canMakeRequest (now : Nat) (rl : RateLimitState) : Bool × RateLimitState :=
  let rl1 := if now - rl.dailyResetTime > 24 * 60 * 60 * 1000 then
    { rl with dailyUsage := 0, dailyResetTime := now } else rl
  if rl1.dailyUsage ≥ RATE_requestsPerDay then (false, rl1)
  else (decide (now - rl1.lastRequestTime ≥ RATE_minInterval), rl1)

/-- `updateRateLimit`: the commit executed after a successful remote call. -/
def updateRateLimit (now : Nat) (rl : RateLimitState) : RateLimitState :=
  { rl with lastRequestTime := now, dailyUsage := rl.dailyUsage + 1 }

/-- One cached field-analysis payload (`{ data, timestamp }`). -/
structure CacheEntry where
  data : List FieldInfo
  timestamp : Nat
deriving DecidableEq

/-- The `CACHE.fieldAnalysis` map: insertion-ordered key/entry pairs, as a JS
`Map` is. -/
abbrev FieldCache := List (String × CacheEntry)

/-- `Map.get`. -/
def cacheGet (key : String) (cache : FieldCache) : Option CacheEntry :=
  cache.lookup key

/-- `Map.set`: update the entry in place when the key is present (a JS `Map`
holds each key once), otherwise append at the end. -/
def cacheSet (key : String) (entry : CacheEntry) (cache : FieldCache) : FieldCache :=
  if cache.any (fun p => p.1 == key) then
    cache.map (fun p => if p.1 == key then (key, entry) else p)
  else cache ++ [(key, entry)]

/-- `isCacheExpired`: the entry is stale once its age exceeds the TTL. -/
def isCacheExpired (now : Nat) (cachedResult : CacheEntry) : Bool :=
  decide (now - cachedResult.timestamp > CACHE_ttl)

/-- `cleanupCache`: when over capacity, sort the entries by ascending
timestamp (JS `Array.sort` is stable) and delete the oldest ones until the
size is back to `maxSize`. -/
def cleanupCache (cache : FieldCache) : FieldCache :=
  if cache.length > CACHE_maxSize then
    let entries := cache.mergeSort (fun a b => a.2.timestamp ≤ b.2.timestamp)
    let toRemove := entries.take (cache.length - CACHE_maxSize)
    toRemove.foldl (fun c p => c.filter (fun q => q.1 ≠ p.1)) cache
  else cache

/-- The put-then-evict step executed by `analyzeFields` after every cache
write (`CACHE.fieldAnalysis.set(...)` followed by `cleanupCache(...)`). -/
def putAndCleanup (cache : FieldCache) (kv : String × CacheEntry) : FieldCache :=
  cleanupCache (cacheSet kv.1 kv.2 cache)

/-- The base64 alphabet. -/
def base64Chars : List Char :=
  "ABCDEFGHIJKLMNOPQRSTUVWXYZabcdefghijklmnopqrstuvwxyz0123456789+/".data

/-- One base64 digit. -/
def base64Digit (n : Nat) : Char := base64Chars.getD n 'A'

/-- Base64-encode a byte list, three bytes at a time, with `=` padding. -/
def base64Enc : List Nat → List Char
  | [] => []
  | [a] => [base64Digit (a / 4), base64Digit (a % 4 * 16), '=', '=']
  | [a, b] => [base64Digit (a / 4), base64Digit (a % 4 * 16 + b / 16),
      base64Digit (b % 16 * 4), '=']
  | a :: b :: c :: rest =>
    [base64Digit (a / 4), base64Digit (a % 4 * 16 + b / 16),
      base64Digit (b % 16 * 4 + c / 64), base64Digit (c % 64)] ++ base64Enc rest

/-- JS `btoa` (the real one throws above code point 255; the pipeline feeds it
field/context text, whose code points we reduce to their low byte). -/
def btoa (s : String) : String :=
  ⟨base64Enc (s.data.map (fun c => c.toNat % 256))⟩

/-- JS `s.substring(0, n)`. -/
def jsSubstringTo (s : String) (n : Nat) : String := ⟨s.data.take n⟩

/-- The classification `context` object (only the properties read by
`generateFieldCacheKey`; the others are used for prompt construction only). -/
structure Context where
  atsType : Option String
  url : Option String
deriving DecidableEq

/-- `generateFieldCacheKey`: a deterministic fingerprint of the field batch
and context. -/
def generateFieldCacheKey (fields : List FieldInfo) (context : Context) : String :=
  let fieldsHash := String.intercalate "|"
    (fields.map (fun f => f.type ++ "-" ++ f.name ++ "-" ++ f.id ++ "-" ++ f.label))
  let contextHash := jsOrString context.atsType "" ++ "-" ++ jsOrString context.url ""
  "fields-" ++ jsSubstringTo (btoa (fieldsHash ++ contextHash)) 32

/-- One per-field record of the JSON array extracted from the model response. -/
structure FieldAnalysis where
  fieldIndex : Nat
  purpose : String
  confidence : Rat
  reasoning : String
deriving DecidableEq

/-- The merge step of `parseFieldAnalysisResponse`: each original field picks
up the analysis record carrying its 1-based index, if any. -/
def parseFieldAnalysisMerge (analysis : List FieldAnalysis)
    (originalFields : List FieldInfo) : List FieldInfo :=
  originalFields.enum.map (fun pr =>
    match analysis.find? (fun a => a.fieldIndex == pr.1 + 1) with
    | some a =>
      { pr.2 with
        purpose := some a.purpose
        confidence := some a.confidence
        llmReasoning := some a.reasoning
        mappingMethod := some "llm" }
    | none => pr.2)

/-- `fallbackFieldAnalysis`: floor the confidence at 0.3, default the mapping
method to `"fallback"` when unset, and stamp the unavailability note. -/
def fallbackFieldAnalysis (fields : List FieldInfo) : List FieldInfo :=
  fields.map (fun field =>
    { field with
      confidence := some (jsMax (jsOrRat field.confidence (mkRat 0 1)) (mkRat 3 10))
      mappingMethod := some (jsOrString field.mappingMethod "fallback")
      llmReasoning := some "LLM analysis unavailable, using heuristic fallback" })

/-- The module state of gemini-client.js touched by `analyzeFields`. -/
structure GeminiState where
  rateLimit : RateLimitState
  fieldAnalysisCache : FieldCache
deriving DecidableEq

/-- The remote tail of `analyzeFields` (prompt build, `makeGeminiRequest`,
parse, commit, cache write). The network outcome is the `remote` parameter:
`none` models a thrown transport/HTTP error, which the catch converts into
fallback output with no rate-limit commit and no cache write; `some arr`
models a 2xx response whose extracted JSON array is `arr` (an unparsable
response body is `some []`, since the parse error is caught inside
`parseFieldAnalysisResponse`, which then returns the original fields). The
third component records that a remote request was issued. -/
def analyzeFieldsRemote (now : Nat) (cacheKey : String)
    (fields : List FieldInfo) (remote : Option (List FieldAnalysis))
    (st : GeminiState) : List FieldInfo × GeminiState × Bool :=
  match remote with
  | none => (fallbackFieldAnalysis fields, st, true)
  | some responseAnalysis =>
    let rl2 := updateRateLimit now st.rateLimit
    let analysis := parseFieldAnalysisMerge responseAnalysis fields
    let cache2 := cleanupCache
      (cacheSet cacheKey ⟨analysis, now⟩ st.fieldAnalysisCache)
    (analysis, ⟨rl2, cache2⟩, true)

/-- `analyzeFields` from gemini-client.js: rate-limit check (a denial degrades
to fallback output), then cache lookup with lazy TTL expiry, then the remote
call. `now` stands for the value of `Date.now()` during this call (the JS
reads the clock several times in one call; a single instant models them). -/
def analyzeFields (now : Nat) (fields : List FieldInfo) (context : Context)
    (remote : Option (List FieldAnalysis)) (st : GeminiState) :
    List FieldInfo × GeminiState × Bool :=
  let checked := canMakeRequest now st.rateLimit
  let st1 : GeminiState := { st with rateLimit := checked.2 }
  if !checked.1 then (fallbackFieldAnalysis fields, st1, false)
  else
    let cacheKey := generateFieldCacheKey fields context
    match cacheGet cacheKey st1.fieldAnalysisCache with
    | some cachedResult =>
      if !isCacheExpired now cachedResult then (cachedResult.data, st1, false)
      else analyzeFieldsRemote now cacheKey fields remote st1
    | none => analyzeFieldsRemote now cacheKey fields remote st1

/-- One admission attempt followed, on grant, by a successful remote call and
its rate-limit commit (the check/commit pair of `analyzeFields` +
`makeGeminiRequest`). -/
def attemptStep (now : Nat) (rl : RateLimitState) : RateLimitState × Bool :=
  let checked := canMakeRequest now rl
  if checked.1 then (updateRateLimit now checked.2, true) else (checked.2, false)

/-- A sequence of committed admission attempts at the given instants,
returning the final counters and the per-attempt grant decisions. -/
def runAttempts : List Nat → RateLimitState → RateLimitState × List Bool
  | [], rl => (rl, [])
  | t :: ts, rl =>
    let p := attemptStep t rl
    let q := runAttempts ts p.1
    (q.1, p.2 :: q.2)

/-- A selector predicate that accepts everything (concrete stand-in for DOM
matching in test instances). -/
def matchesAll : FieldInfo → String → Bool := fun _ _ => true

/-- A selector predicate that rejects everything. -/
def matchesNone : FieldInfo → String → Bool := fun _ _ => false

/-- Concrete field whose haystack qualifies both `fullName` (confidence 4/13)
and `email` (confidence 4/7) in the heuristic table. -/
def hfField : FieldInfo := { baseField with name := "name email address e-mail" }

/-- Concrete field for the heuristic-bounds witness: rich firstName signals. -/
def hbField : FieldInfo :=
  { baseField with
    name := "firstname"
    id := "first_name"
    placeholder := "first name"
    label := "given name" }

/-- Concrete field whose name (but neither label nor placeholder) carries a
question-pattern phrase. -/
def qpField : FieldInfo :=
  { baseField with name := "Why are you interested in this position?" }

/-- An empty analysis context. -/
def emptyContext : Context := ⟨none, none⟩

/-- Concrete analysis record used in the cache scenarios. -/
def wArr : List FieldAnalysis := [⟨1, "email", mkRat 1 2, "format"⟩]

/-- A fresh gemini-client state (all counters zero, empty cache). -/
def freshState : GeminiState := ⟨⟨0, 0, 0⟩, []⟩

/-- Result of the first `analyzeFields` call in the warm-cache scenarios:
the merged analysis for `baseField`. -/
def wRes1 : List FieldInfo :=
  [{ baseField with
     purpose := some "email"
     confidence := some (mkRat 1 2)
     llmReasoning := some "format"
     mappingMethod := some "llm" }]

/-- State after the first call of the warm-cache scenarios (committed rate
limit, one cache entry created at instant 5000). -/
def wSt1 : GeminiState :=
  ⟨⟨5000, 1, 0⟩, [(generateFieldCacheKey [baseField] emptyContext, ⟨wRes1, 5000⟩)]⟩

/-- Concrete field already mapped by the heuristic stage, used against the
fallback path. -/
def fbField : FieldInfo := { baseField with mappingMethod := some "heuristic" }

/-- A state whose per-minute interval blocks a call at instant 5500. -/
def deniedState : GeminiState := ⟨⟨5000, 0, 0⟩, []⟩

/-- A state holding one cache entry created at instant 0 under the key of the
empty batch. -/
def staleState : GeminiState :=
  ⟨⟨0, 0, 0⟩, [(generateFieldCacheKey [] emptyContext, ⟨[], 0⟩)]⟩

/-- Concrete series of 101 distinct-key puts with strictly increasing creation timestamps. -/
def capPuts : List (String × CacheEntry) :=
  (List.range 101).map (fun i => (toString i, ⟨[], i⟩))

/-- Admission instants spaced exactly one minimum interval (1000 ms) apart:
`regularTimes n k = [1000*(k+1), …, 1000*(k+n)]`. -/
def regularTimes : Nat → Nat → List Nat
  | 0, _ => []
  | Nat.succ m, k => (1000 * (k + 1)) :: regularTimes m (k + 1)

/-- The 1500 admission instants spaced exactly one minimum interval apart. -/
def dayTimes : List Nat := regularTimes 1500 0

theorem heuristicLoop_conf_bounds (field : FieldInfo)
    (table : List (String × HeuristicPattern)) :
    mkRat 0 1 ≤ (mapFieldByHeuristicsLoop field table).confidence ∧
      (mapFieldByHeuristicsLoop field table).confidence ≤ mkRat 8 10 := by
  induction table with
  | nil =>
    simp only [mapFieldByHeuristicsLoop]
    exact ⟨by decide, by decide⟩
  | cons head rest ih =>
    obtain ⟨p, pat⟩ := head
    simp only [mapFieldByHeuristicsLoop]
    split
    · next h =>
      unfold jsMin
      dsimp only
      split
      · next h2 =>
        exact ⟨le_trans (by decide) (le_of_lt h), h2⟩
      · exact ⟨by decide, by decide⟩
    · exact ih

theorem heuristicLoop_resolved_bounds (field : FieldInfo)
    (table : List (String × HeuristicPattern))
    (h : (mapFieldByHeuristicsLoop field table).purpose ≠ "unknown") :
    mkRat 3 10 < (mapFieldByHeuristicsLoop field table).confidence ∧
      (mapFieldByHeuristicsLoop field table).confidence ≤ mkRat 8 10 := by
  induction table with
  | nil => exact absurd rfl h
  | cons head rest ih =>
    obtain ⟨p, pat⟩ := head
    simp only [mapFieldByHeuristicsLoop] at h ⊢
    split
    · next hq =>
      unfold jsMin
      dsimp only
      split
      · next h2 => exact ⟨hq, h2⟩
      · exact ⟨by decide, by decide⟩
    · next hq =>
      rw [if_neg hq] at h
      exact ih h

theorem heuristicLoop_find_first (field : FieldInfo)
    (table : List (String × HeuristicPattern)) :
    mapFieldByHeuristicsLoop field table =
      (match table.find?
          (fun pr => decide (mkRat 3 10 < heuristicConfidence field pr.2)) with
        | some pr => ⟨pr.1, jsMin (heuristicConfidence field pr.2) (mkRat 8 10)⟩
        | none => ⟨"unknown", mkRat 0 1⟩) := by
  induction table with
  | nil => rfl
  | cons head rest ih =>
    obtain ⟨p, pat⟩ := head
    by_cases hq : mkRat 3 10 < heuristicConfidence field pat
    · rw [List.find?_cons_of_pos _ (by simpa using hq)]
      simp only [mapFieldByHeuristicsLoop]
      rw [if_pos hq]
    · rw [List.find?_cons_of_neg _ (by simpa using hq)]
      simp only [mapFieldByHeuristicsLoop]
      rw [if_neg hq]
      exact ih

/-- Claim C1: for every field and platform, when the RuleSet stage matches the
field (`mapFieldByATS` returns a purpose other than `"unknown"`), `mapFields`
returns that field with `mappingMethod = "ats-specific"` and confidence 0.9,
and the heuristic and question-pattern stages are not consulted: the per-field
result is this same record for every choice of the two later stage
functions. -/
theorem ats_stage_short_circuits (selMatches : FieldInfo → String → Bool)
    (heur : FieldInfo → HeuristicResult) (pat : FieldInfo → String)
    (atsType : String) :
    (∀ fields, mapFieldsWith selMatches heur pat fields atsType
      = fields.map (fun f => markManualReview (mapOneFieldWith selMatches heur pat atsType f))) ∧
    (∀ field, mapFieldByATS selMatches field atsType ≠ "unknown" →
      mapOneFieldWith selMatches heur pat atsType field
        = { field with
            purpose := some (mapFieldByATS selMatches field atsType)
            confidence := some (mkRat 9 10)
            mappingMethod := some "ats-specific" } ∧
      (markManualReview (mapOneFieldWith selMatches heur pat atsType field)).mappingMethod
        = some "ats-specific" ∧
      (markManualReview (mapOneFieldWith selMatches heur pat atsType field)).confidence
        = some (mkRat 9 10)) := by
  constructor
  · intro fields
    simp [mapFieldsWith, List.map_map, Function.comp]
  · intro field h
    have heq : mapOneFieldWith selMatches heur pat atsType field
        = { field with
            purpose := some (mapFieldByATS selMatches field atsType)
            confidence := some (mkRat 9 10)
            mappingMethod := some "ats-specific" } := by
      simp only [mapOneFieldWith]
      rw [if_pos h]
    refine ⟨heq, ?_, ?_⟩ <;>
      · rw [heq]
        unfold markManualReview
        split <;> rfl

/-- Witness for C1 at a concrete input: with an all-accepting selector
predicate on the workday table, `baseField` resolves to `firstName` by the
ATS stage. -/
theorem ats_stage_short_circuits_witness :
    mapFieldByATS matchesAll baseField "workday" ≠ "unknown" ∧
    mapOneFieldWith matchesAll mapFieldByHeuristics mapFieldByQuestionPatterns
        "workday" baseField
      = { baseField with
          purpose := some (mapFieldByATS matchesAll baseField "workday")
          confidence := some (mkRat 9 10)
          mappingMethod := some "ats-specific" } :=
  ⟨by decide,
    ((ats_stage_short_circuits matchesAll mapFieldByHeuristics
      mapFieldByQuestionPatterns "workday").2 baseField (by decide)).1⟩

/-- Claim C2, amended: the heuristic scorer qualifies a purpose exactly when
its confidence (matched predicates over total predicate count) exceeds 0.3,
and returns the FIRST qualifying purpose in table declaration order (capped at
0.8) — not the qualifying purpose of highest confidence. -/
theorem heuristic_first_qualifying_in_order (field : FieldInfo) :
    mapFieldByHeuristics field =
      (match HEURISTIC_PATTERNS.find?
          (fun pr => decide (mkRat 3 10 < heuristicConfidence field pr.2)) with
        | some pr => ⟨pr.1, jsMin (heuristicConfidence field pr.2) (mkRat 8 10)⟩
        | none => ⟨"unknown", mkRat 0 1⟩) :=
  heuristicLoop_find_first field HEURISTIC_PATTERNS

/-- Counterexample to C2 as stated: on this field both `fullName` (confidence
4/13) and `email` (confidence 4/7) qualify, `email` scores strictly higher,
yet the scorer returns `fullName`, the earlier table entry. -/
theorem heuristic_not_highest_counterexample :
    ((HEURISTIC_PATTERNS.lookup "fullName").map
        (fun p => decide (mkRat 3 10 < heuristicConfidence hfField p)) = some true) ∧
    ((HEURISTIC_PATTERNS.lookup "email").map
        (fun p => decide (mkRat 3 10 < heuristicConfidence hfField p)) = some true) ∧
    ((HEURISTIC_PATTERNS.lookup "fullName").map (heuristicConfidence hfField)
      = some (mkRat 4 13)) ∧
    ((HEURISTIC_PATTERNS.lookup "email").map (heuristicConfidence hfField)
      = some (mkRat 4 7)) ∧
    mkRat 4 13 < mkRat 4 7 ∧
    mapFieldByHeuristics hfField = ⟨"fullName", mkRat 4 13⟩ := by decide

/-- Claim C3: every field the heuristic stage resolves (purpose other than
`"unknown"`) carries a confidence strictly above 0.3 and at most 0.8. -/
theorem heuristic_resolved_confidence_range (field : FieldInfo)
    (h : (mapFieldByHeuristics field).purpose ≠ "unknown") :
    mkRat 3 10 < (mapFieldByHeuristics field).confidence ∧
      (mapFieldByHeuristics field).confidence ≤ mkRat 8 10 :=
  heuristicLoop_resolved_bounds field HEURISTIC_PATTERNS h

/-- Witness for C3 at a concrete input: `hbField` resolves to `firstName`
with confidence 1/2. -/
theorem heuristic_resolved_confidence_range_witness :
    (mapFieldByHeuristics hbField).purpose ≠ "unknown" ∧
    (mkRat 3 10 < (mapFieldByHeuristics hbField).confidence ∧
      (mapFieldByHeuristics hbField).confidence ≤ mkRat 8 10) :=
  ⟨by decide, heuristic_resolved_confidence_range hbField (by decide)⟩

theorem mapOneField_cases (selMatches : FieldInfo → String → Bool)
    (heur : FieldInfo → HeuristicResult) (pat : FieldInfo → String)
    (atsType : String) (field : FieldInfo) :
    mapOneFieldWith selMatches heur pat atsType field
        = { field with
            purpose := some (mapFieldByATS selMatches field atsType)
            confidence := some (mkRat 9 10)
            mappingMethod := some "ats-specific" } ∨
      mapOneFieldWith selMatches heur pat atsType field
        = { field with
            purpose := some (heur field).purpose
            confidence := some (heur field).confidence
            mappingMethod := some "heuristic" } := by
  by_cases h : mapFieldByATS selMatches field atsType ≠ "unknown"
  · left
    simp only [mapOneFieldWith]
    rw [if_pos h]
  · right
    simp only [mapOneFieldWith]
    rw [if_neg h]
    exact if_pos trivial

/-- Claim C4, amended: the question-pattern stage applies its ordered
regular-expression table to the lower-cased concatenation of the field LABEL
and PLACEHOLDER (not name/id/placeholder/label) and returns the first purpose
with a matching expression; moreover in `mapFields` the question-pattern
branch is unreachable (the heuristic guard always fires, because a result
object is never strictly equal to the string `"unknown"`), so every mapped
field carries method `"ats-specific"` or `"heuristic"` and the fixed 0.7
question-pattern confidence holds only vacuously. -/
theorem question_pattern_stage_behavior :
    (∀ field, mapFieldByQuestionPatterns field
      = firstQuestionPatternMatch (jsLower (field.label ++ " " ++ field.placeholder))) ∧
    (∀ (selMatches : FieldInfo → String → Bool) (fields : List FieldInfo)
        (atsType : String) (g : FieldInfo), g ∈ mapFields selMatches fields atsType →
      g.mappingMethod = some "ats-specific" ∨ g.mappingMethod = some "heuristic") := by
  constructor
  · intro field
    rfl
  · intro selMatches fields atsType g hg
    simp only [mapFields, mapFieldsWith, List.mem_map] at hg
    obtain ⟨r, ⟨f, hf, rfl⟩, rfl⟩ := hg
    have hmark : ∀ x : FieldInfo, (markManualReview x).mappingMethod = x.mappingMethod := by
      intro x
      unfold markManualReview
      split <;> rfl
    rw [hmark]
    rcases mapOneField_cases selMatches mapFieldByHeuristics mapFieldByQuestionPatterns
        atsType f with h | h <;> rw [h]
    · exact Or.inl rfl
    · exact Or.inr rfl

/-- Witness for C4 at a concrete input: the heuristically mapped `baseField`
is a member of a `mapFields` output and carries one of the two reachable
methods. -/
theorem question_pattern_stage_behavior_witness :
    mapFieldsResult matchesNone "unknownats" baseField
        ∈ mapFields matchesNone [baseField] "unknownats" ∧
      ((mapFieldsResult matchesNone "unknownats" baseField).mappingMethod
          = some "ats-specific" ∨
        (mapFieldsResult matchesNone "unknownats" baseField).mappingMethod
          = some "heuristic") :=
  ⟨by decide,
    question_pattern_stage_behavior.2 matchesNone [baseField] "unknownats" _ (by decide)⟩

/-- Counterexample to C4 as stated: this field carries a question phrase in
its NAME only; the stage applied to the claimed name/id/placeholder/label
concatenation would return `whyInterested`, but the source function, which
reads only label and placeholder, returns `"unknown"`. -/
theorem question_pattern_text_counterexample :
    claimedQuestionPatternsAllText qpField = "whyInterested" ∧
      mapFieldByQuestionPatterns qpField = "unknown" := by decide

/-- Claim C10: `mapFields` maps the input list elementwise in order (same
length, same order, each output field the input field with only mapping
attributes updated: name, id, placeholder, label, type and required are
untouched), and every returned field has a `some` purpose, a mapping method
among the four orchestrator labels, and a confidence inside the unit
interval. -/
theorem mapFields_shape_and_invariants (selMatches : FieldInfo → String → Bool)
    (fields : List FieldInfo) (atsType : String) :
    mapFields selMatches fields atsType
        = fields.map (mapFieldsResult selMatches atsType) ∧
    ∀ field : FieldInfo,
      (mapFieldsResult selMatches atsType field).name = field.name ∧
      (mapFieldsResult selMatches atsType field).id = field.id ∧
      (mapFieldsResult selMatches atsType field).placeholder = field.placeholder ∧
      (mapFieldsResult selMatches atsType field).label = field.label ∧
      (mapFieldsResult selMatches atsType field).type = field.type ∧
      (mapFieldsResult selMatches atsType field).required = field.required ∧
      ((mapFieldsResult selMatches atsType field).purpose).isSome = true ∧
      ((mapFieldsResult selMatches atsType field).mappingMethod = some "ats-specific" ∨
        (mapFieldsResult selMatches atsType field).mappingMethod = some "heuristic" ∨
        (mapFieldsResult selMatches atsType field).mappingMethod = some "question-pattern" ∨
        (mapFieldsResult selMatches atsType field).mappingMethod = some "none") ∧
      ∃ c, (mapFieldsResult selMatches atsType field).confidence = some c ∧
        mkRat 0 1 ≤ c ∧ c ≤ mkRat 1 1 := by
  constructor
  · simp [mapFields, mapFieldsWith, mapFieldsResult, List.map_map, Function.comp]
  · intro field
    rcases mapOneField_cases selMatches mapFieldByHeuristics mapFieldByQuestionPatterns
        atsType field with h | h
    · unfold mapFieldsResult
      rw [h]
      unfold markManualReview
      split <;>
        exact ⟨rfl, rfl, rfl, rfl, rfl, rfl, rfl, Or.inl rfl,
          ⟨mkRat 9 10, rfl, by decide, by decide⟩⟩
    · unfold mapFieldsResult
      rw [h]
      have hb := heuristicLoop_conf_bounds field HEURISTIC_PATTERNS
      unfold markManualReview
      split <;>
        exact ⟨rfl, rfl, rfl, rfl, rfl, rfl, rfl, Or.inr (Or.inl rfl),
          ⟨(mapFieldByHeuristics field).confidence, rfl, hb.1,
            le_trans hb.2 (by decide)⟩⟩

theorem lookup_map_replace (key : String) (entry : CacheEntry) :
    ∀ cache : FieldCache, cache.any (fun p => p.1 == key) = true →
      List.lookup key (cache.map (fun p => if p.1 == key then (key, entry) else p))
        = some entry := by
  intro cache
  induction cache with
  | nil => intro h; simp at h
  | cons p rest ih =>
    intro hany
    simp only [List.any_cons, Bool.or_eq_true] at hany
    rw [List.map_cons]
    cases hpb : (p.1 == key) with
    | true => simp [List.lookup]
    | false =>
      rw [if_neg (by simp : ¬(false = true))]
      have hne : (key == p.1) = false := by
        rw [beq_eq_false_iff_ne] at hpb ⊢
        exact fun hk => hpb hk.symm
      have hrest : rest.any (fun q => q.1 == key) = true := by
        rcases hany with h | h
        · rw [hpb] at h
          exact absurd h (by simp)
        · exact h
      simp only [List.lookup, hne]
      exact ih hrest

theorem lookup_append_absent (key : String) (entry : CacheEntry) :
    ∀ cache : FieldCache, cache.any (fun p => p.1 == key) = false →
      List.lookup key (cache ++ [(key, entry)]) = some entry := by
  intro cache
  induction cache with
  | nil => intro _; simp [List.lookup]
  | cons p rest ih =>
    intro hany
    simp only [List.any_cons, Bool.or_eq_false_iff] at hany
    have hne : (key == p.1) = false := by
      have hpb := hany.1
      rw [beq_eq_false_iff_ne] at hpb ⊢
      exact fun hk => hpb hk.symm
    rw [List.cons_append]
    simp only [List.lookup, hne]
    exact ih hany.2

theorem cacheSet_lookup_self (key : String) (entry : CacheEntry) (cache : FieldCache) :
    cacheGet key (cacheSet key entry cache) = some entry := by
  unfold cacheGet cacheSet
  split
  · next h => exact lookup_map_replace key entry cache h
  · next h =>
    simp only [Bool.not_eq_true] at h
    exact lookup_append_absent key entry cache h

theorem cacheSet_length_le (key : String) (entry : CacheEntry) (cache : FieldCache) :
    (cacheSet key entry cache).length ≤ cache.length + 1 := by
  unfold cacheSet
  split
  · simp
  · simp

theorem cleanupCache_of_le (cache : FieldCache) (h : cache.length ≤ CACHE_maxSize) :
    cleanupCache cache = cache := by
  unfold cleanupCache
  rw [if_neg (by omega)]

/-- Claim C9, amended: when the rate limiter denies admission, `analyzeFields`
returns (without consulting the cache or issuing a remote call) the same
number of fields in order, each unchanged except that its confidence is
floored at 0.3 (from 0 when undefined), its mapping method defaults to
`"fallback"` only when previously undefined or empty (an existing method is
kept), and its `llmReasoning` is overwritten with a fixed unavailability
note. -/
theorem rate_denied_fallback_frame (now : Nat) (fields : List FieldInfo)
    (context : Context) (remote : Option (List FieldAnalysis)) (st : GeminiState)
    (h : (canMakeRequest now st.rateLimit).1 = false) :
    analyzeFields now fields context remote st
        = (fallbackFieldAnalysis fields,
            { st with rateLimit := (canMakeRequest now st.rateLimit).2 }, false) ∧
    (fallbackFieldAnalysis fields).length = fields.length ∧
    ∀ (i : Nat) (hi : i < fields.length) (hi2 : i < (fallbackFieldAnalysis fields).length),
      ((fallbackFieldAnalysis fields).get ⟨i, hi2⟩).purpose = (fields.get ⟨i, hi⟩).purpose ∧
      ((fallbackFieldAnalysis fields).get ⟨i, hi2⟩).name = (fields.get ⟨i, hi⟩).name ∧
      ((fallbackFieldAnalysis fields).get ⟨i, hi2⟩).id = (fields.get ⟨i, hi⟩).id ∧
      ((fallbackFieldAnalysis fields).get ⟨i, hi2⟩).placeholder = (fields.get ⟨i, hi⟩).placeholder ∧
      ((fallbackFieldAnalysis fields).get ⟨i, hi2⟩).label = (fields.get ⟨i, hi⟩).label ∧
      ((fallbackFieldAnalysis fields).get ⟨i, hi2⟩).type = (fields.get ⟨i, hi⟩).type ∧
      ((fallbackFieldAnalysis fields).get ⟨i, hi2⟩).required = (fields.get ⟨i, hi⟩).required ∧
      ((fallbackFieldAnalysis fields).get ⟨i, hi2⟩).confidence
        = some (jsMax (jsOrRat (fields.get ⟨i, hi⟩).confidence (mkRat 0 1)) (mkRat 3 10)) ∧
      ((fallbackFieldAnalysis fields).get ⟨i, hi2⟩).mappingMethod
        = some (jsOrString (fields.get ⟨i, hi⟩).mappingMethod "fallback") ∧
      ((fallbackFieldAnalysis fields).get ⟨i, hi2⟩).llmReasoning
        = some "LLM analysis unavailable, using heuristic fallback" := by
  refine ⟨?_, ?_, ?_⟩
  · simp [analyzeFields, h]
  · simp [fallbackFieldAnalysis]
  · intro i hi hi2
    simp [fallbackFieldAnalysis, List.get_eq_getElem, List.getElem_map]

/-- Witness for C9 at a concrete input: a call blocked by the per-minute
interval degrades the already-heuristically-mapped field. -/
theorem rate_denied_fallback_frame_witness :
    (canMakeRequest 5500 deniedState.rateLimit).1 = false ∧
    analyzeFields 5500 [fbField] emptyContext none deniedState
      = (fallbackFieldAnalysis [fbField],
          { deniedState with rateLimit := (canMakeRequest 5500 deniedState.rateLimit).2 },
          false) :=
  ⟨by decide,
    (rate_denied_fallback_frame 5500 [fbField] emptyContext none deniedState (by decide)).1⟩

/-- Counterexample to C9 as stated: under rate-limit denial a field that
already carries `mappingMethod = "heuristic"` keeps that method (it is NOT
set to `"fallback"`), and its `llmReasoning` attribute is modified. -/
theorem rate_denied_method_kept_counterexample :
    (canMakeRequest 5500 deniedState.rateLimit).1 = false ∧
    ((analyzeFields 5500 [fbField] emptyContext none deniedState).1.head?.map
        FieldInfo.mappingMethod) = some (some "heuristic") ∧
    ((analyzeFields 5500 [fbField] emptyContext none deniedState).1.head?.map
        FieldInfo.llmReasoning)
      = some (some "LLM analysis unavailable, using heuristic fallback") ∧
    fbField.llmReasoning = none := by decide

/-- Claim C7: an entry older than the TTL (in particular one with
`createdAt = now - ttl - 1`) is reported expired, and `analyzeFields` treats
it as a miss — despite its physical presence under the computed key, the
remote call is issued. -/
theorem cache_ttl_expiry_is_miss :
    (∀ (now : Nat) (e : CacheEntry), CACHE_ttl < now - e.timestamp →
      isCacheExpired now e = true) ∧
    (∀ (now : Nat) (fields : List FieldInfo) (context : Context)
        (remote : Option (List FieldAnalysis)) (st : GeminiState) (e : CacheEntry),
      (canMakeRequest now st.rateLimit).1 = true →
      cacheGet (generateFieldCacheKey fields context) st.fieldAnalysisCache = some e →
      CACHE_ttl < now - e.timestamp →
      (analyzeFields now fields context remote st).2.2 = true) := by
  constructor
  · intro now e hlt
    exact decide_eq_true hlt
  · intro now fields context remote st e hgr hget hlt
    have hexp : isCacheExpired now e = true := decide_eq_true hlt
    cases remote <;> simp [analyzeFields, analyzeFieldsRemote, hgr, hget, hexp]

/-- Witness for C7 at a concrete input: an entry created at instant 0 is
stale at instant ttl + 1 and the remote call fires despite the entry being
present. -/
theorem cache_ttl_expiry_is_miss_witness :
    CACHE_ttl < 86400001 - (0 : Nat) ∧
    (canMakeRequest 86400001 staleState.rateLimit).1 = true ∧
    cacheGet (generateFieldCacheKey [] emptyContext) staleState.fieldAnalysisCache
      = some ⟨[], 0⟩ ∧
    (analyzeFields 86400001 [] emptyContext none staleState).2.2 = true :=
  ⟨by decide, by decide, by decide,
    cache_ttl_expiry_is_miss.2 86400001 [] emptyContext none staleState ⟨[], 0⟩
      (by decide) (by decide) (by decide)⟩

/-- Claim C5, amended: when the first `analyzeFields` call succeeded remotely
and populated the cache (and the cache was below capacity so the new entry
survives eviction), a second call with the same batch and context whose
instant keeps the entry unexpired AND which the rate limiter admits returns
exactly the first result and issues no remote call. (Admission is a necessary
extra hypothesis: the rate-limit check runs before the cache lookup, so a
denied second call returns fallback output instead — see the
counterexample.) -/
theorem warm_cache_idempotent_when_granted (t0 t1 : Nat) (fields : List FieldInfo)
    (context : Context) (arr : List FieldAnalysis)
    (remote2 : Option (List FieldAnalysis)) (st0 : GeminiState)
    (res1 : List FieldInfo) (st1 : GeminiState)
    (hfirst : analyzeFields t0 fields context (some arr) st0 = (res1, st1, true))
    (hcap : st0.fieldAnalysisCache.length ≤ 99)
    (hfresh : t1 - t0 ≤ CACHE_ttl)
    (hgrant : (canMakeRequest t1 st1.rateLimit).1 = true) :
    analyzeFields t1 fields context remote2 st1
      = (res1, { st1 with rateLimit := (canMakeRequest t1 st1.rateLimit).2 }, false) := by
  have hremote : analyzeFieldsRemote t0 (generateFieldCacheKey fields context) fields
      (some arr) { st0 with rateLimit := (canMakeRequest t0 st0.rateLimit).2 }
      = (res1, st1, true) := by
    cases hc0 : (canMakeRequest t0 st0.rateLimit).1 with
    | false =>
      exfalso
      simp [analyzeFields, hc0] at hfirst
    | true =>
      cases hget0 : cacheGet (generateFieldCacheKey fields context) st0.fieldAnalysisCache with
      | none => simpa [analyzeFields, hc0, hget0] using hfirst
      | some e0 =>
        cases hex0 : isCacheExpired t0 e0 with
        | false =>
          exfalso
          simp [analyzeFields, hc0, hget0, hex0] at hfirst
        | true => simpa [analyzeFields, hc0, hget0, hex0] using hfirst
  simp only [analyzeFieldsRemote] at hremote
  have hres : parseFieldAnalysisMerge arr fields = res1 := congrArg Prod.fst hremote
  have hst : (⟨updateRateLimit t0 (canMakeRequest t0 st0.rateLimit).2,
      cleanupCache (cacheSet (generateFieldCacheKey fields context)
        ⟨parseFieldAnalysisMerge arr fields, t0⟩ st0.fieldAnalysisCache)⟩ : GeminiState)
      = st1 := congrArg (fun q => q.2.1) hremote
  have hkey : cacheGet (generateFieldCacheKey fields context) st1.fieldAnalysisCache
      = some ⟨res1, t0⟩ := by
    rw [← hst]
    dsimp only
    rw [hres]
    rw [cleanupCache_of_le]
    · exact cacheSet_lookup_self _ _ _
    · have hlen := cacheSet_length_le (generateFieldCacheKey fields context)
        ⟨res1, t0⟩ st0.fieldAnalysisCache
      have hms : CACHE_maxSize = 100 := rfl
      omega
  have hnexp : isCacheExpired t1 (⟨res1, t0⟩ : CacheEntry) = false := by
    unfold isCacheExpired
    exact decide_eq_false (not_lt.mpr hfresh)
  simp [analyzeFields, hgrant, hkey, hnexp]

/-- Witness for C5 (amended) at concrete inputs: first call at instant 5000,
second at 6000 (one minimum interval later), identical result, no second
remote call. -/
theorem warm_cache_idempotent_witness :
    analyzeFields 5000 [baseField] emptyContext (some wArr) freshState
        = (wRes1, wSt1, true) ∧
    freshState.fieldAnalysisCache.length ≤ 99 ∧
    (6000 : Nat) - 5000 ≤ CACHE_ttl ∧
    (canMakeRequest 6000 wSt1.rateLimit).1 = true ∧
    analyzeFields 6000 [baseField] emptyContext none wSt1
      = (wRes1, { wSt1 with rateLimit := (canMakeRequest 6000 wSt1.rateLimit).2 },
          false) :=
  have h1 : analyzeFields 5000 [baseField] emptyContext (some wArr) freshState
      = (wRes1, wSt1, true) := by decide
  have h2 : freshState.fieldAnalysisCache.length ≤ 99 := by decide
  have h3 : (6000 : Nat) - 5000 ≤ CACHE_ttl := by decide
  have h4 : (canMakeRequest 6000 wSt1.rateLimit).1 = true := by decide
  ⟨h1, h2, h3, h4,
    warm_cache_idempotent_when_granted 5000 6000 [baseField] emptyContext wArr none
      freshState wRes1 wSt1 h1 h2 h3 h4⟩

/-- Counterexample to C5 as stated: the first call succeeds and populates the
cache, the second call 500 ms later finds the entry unexpired, yet its result
differs from the first result (the per-minute rate limit denies the second
call before the cache is consulted, yielding fallback output), even though no
second remote call is issued. -/
theorem warm_cache_not_idempotent_counterexample :
    (analyzeFields 5000 [baseField] emptyContext (some wArr) freshState).2.2 = true ∧
    (cacheGet (generateFieldCacheKey [baseField] emptyContext)
        ((analyzeFields 5000 [baseField] emptyContext (some wArr)
          freshState).2.1).fieldAnalysisCache).isSome = true ∧
    (5500 : Nat) - 5000 ≤ CACHE_ttl ∧
    (analyzeFields 5500 [baseField] emptyContext (some wArr)
        ((analyzeFields 5000 [baseField] emptyContext (some wArr) freshState).2.1)).1
      ≠ (analyzeFields 5000 [baseField] emptyContext (some wArr) freshState).1 ∧
    (analyzeFields 5500 [baseField] emptyContext (some wArr)
        ((analyzeFields 5000 [baseField] emptyContext (some wArr) freshState).2.1)).2.2
      = false := by decide

theorem canMakeRequest_within (t : Nat) (rl : RateLimitState)
    (h : t ≤ rl.dailyResetTime + 24 * 60 * 60 * 1000) :
    canMakeRequest t rl
      = (if rl.dailyUsage ≥ RATE_requestsPerDay then (false, rl)
          else (decide (t - rl.lastRequestTime ≥ RATE_minInterval), rl)) := by
  have hC : ¬(t - rl.dailyResetTime > 24 * 60 * 60 * 1000) := by omega
  simp only [canMakeRequest, if_neg hC]

theorem canMakeRequest_after_window (now : Nat) (rl : RateLimitState)
    (h : rl.dailyResetTime + 24 * 60 * 60 * 1000 < now) :
    canMakeRequest now rl
      = (decide (now - rl.lastRequestTime ≥ RATE_minInterval),
          { rl with dailyUsage := 0, dailyResetTime := now }) := by
  have hC : now - rl.dailyResetTime > 24 * 60 * 60 * 1000 := by omega
  simp only [canMakeRequest, if_pos hC]
  rw [if_neg (show ¬(0 ≥ RATE_requestsPerDay) by decide)]

theorem attemptStep_within (t : Nat) (rl : RateLimitState)
    (h : t ≤ rl.dailyResetTime + 24 * 60 * 60 * 1000) :
    (attemptStep t rl).1.dailyResetTime = rl.dailyResetTime ∧
    (attemptStep t rl).1.dailyUsage
      = rl.dailyUsage + (if (attemptStep t rl).2 then 1 else 0) := by
  simp only [attemptStep, canMakeRequest_within t rl h]
  by_cases hd : rl.dailyUsage ≥ RATE_requestsPerDay
  · simp [hd]
  · simp only [if_neg hd]
    cases hdec : decide (t - rl.lastRequestTime ≥ RATE_minInterval) with
    | true => simp [hdec, updateRateLimit]
    | false => simp [hdec]

theorem runAttempts_within (ts : List Nat) :
    ∀ rl : RateLimitState, (∀ t ∈ ts, t ≤ rl.dailyResetTime + 24 * 60 * 60 * 1000) →
      (runAttempts ts rl).1.dailyResetTime = rl.dailyResetTime ∧
      (runAttempts ts rl).1.dailyUsage
        = rl.dailyUsage + (runAttempts ts rl).2.count true := by
  induction ts with
  | nil =>
    intro rl _
    simp [runAttempts]
  | cons t ts ih =>
    intro rl hwin
    have ht := hwin t (List.mem_cons_self t ts)
    have hstep := attemptStep_within t rl ht
    have hrec := ih (attemptStep t rl).1 (by
      intro u hu
      rw [hstep.1]
      exact hwin u (List.mem_cons_of_mem t hu))
    simp only [runAttempts]
    refine ⟨by rw [hrec.1, hstep.1], ?_⟩
    rw [hrec.2, hstep.2]
    rcases hb : (attemptStep t rl).2 <;> simp [List.count_cons, hb] <;> omega

/-- Claim C8: after `requestsPerDay` committed grants within one daily window
(starting from a zero counter) the next admission check inside the window is
denied; and once the window start has aged past 24 hours, the next check
resets the daily counter to zero with a fresh window, so a previously denied
caller is granted subject only to the per-minute interval. -/
theorem rate_limiter_daily_limit_and_reset :
    (∀ (ts : List Nat) (tlast : Nat) (rl0 : RateLimitState),
      rl0.dailyUsage = 0 →
      ts.length = RATE_requestsPerDay →
      (∀ t ∈ ts, t ≤ rl0.dailyResetTime + 24 * 60 * 60 * 1000) →
      (runAttempts ts rl0).2 = List.replicate ts.length true →
      tlast ≤ rl0.dailyResetTime + 24 * 60 * 60 * 1000 →
      (canMakeRequest tlast (runAttempts ts rl0).1).1 = false) ∧
    (∀ (now : Nat) (rl : RateLimitState),
      rl.dailyResetTime + 24 * 60 * 60 * 1000 < now →
      canMakeRequest now rl
        = (decide (now - rl.lastRequestTime ≥ RATE_minInterval),
            { rl with dailyUsage := 0, dailyResetTime := now })) := by
  constructor
  · intro ts tlast rl0 h0 hlen hwin hall hlast
    have hacc := runAttempts_within ts rl0 hwin
    have husage : (runAttempts ts rl0).1.dailyUsage = RATE_requestsPerDay := by
      rw [hacc.2, h0, hall, List.count_replicate]
      simp [hlen]
    rw [canMakeRequest_within tlast _ (by rw [hacc.1]; exact hlast)]
    rw [if_pos (show (runAttempts ts rl0).1.dailyUsage ≥ RATE_requestsPerDay by
      rw [husage])]
  · intro now rl h
    exact canMakeRequest_after_window now rl h

theorem runAttempts_regularTimes (n : Nat) :
    ∀ k : Nat, k + n ≤ 1500 →
      runAttempts (regularTimes n k) ⟨1000 * k, k, 0⟩
        = (⟨1000 * (k + n), k + n, 0⟩, List.replicate n true) := by
  induction n with
  | zero =>
    intro k _
    simp [regularTimes, runAttempts]
  | succ m ih =>
    intro k hnk
    have hstep : attemptStep (1000 * (k + 1)) ⟨1000 * k, k, 0⟩
        = (⟨1000 * (k + 1), k + 1, 0⟩, true) := by
      have hmi : RATE_minInterval = 1000 := by decide
      have hdec : decide (1000 * (k + 1) - 1000 * k ≥ RATE_minInterval) = true := by
        apply decide_eq_true
        rw [hmi]
        omega
      simp only [attemptStep,
        canMakeRequest_within (1000 * (k + 1)) ⟨1000 * k, k, 0⟩ (by dsimp only; omega)]
      dsimp only
      rw [if_neg (show ¬(k ≥ RATE_requestsPerDay) by
        simp only [RATE_requestsPerDay]
        omega)]
      dsimp only
      rw [hdec]
      simp [updateRateLimit]
    have hrec := ih (k + 1) (by omega)
    simp only [regularTimes, runAttempts, hstep, hrec]
    have h1 : k + 1 + m = k + (m + 1) := by omega
    rw [h1, List.replicate_succ]

theorem regularTimes_length : ∀ (n k : Nat), (regularTimes n k).length = n := by
  intro n
  induction n with
  | zero => intro k; rfl
  | succ m ih =>
    intro k
    simp [regularTimes, ih]

theorem regularTimes_le : ∀ (n k t : Nat), t ∈ regularTimes n k → t ≤ 1000 * (k + n) := by
  intro n
  induction n with
  | zero =>
    intro k t ht
    simp [regularTimes] at ht
  | succ m ih =>
    intro k t ht
    simp only [regularTimes, List.mem_cons] at ht
    rcases ht with rfl | ht
    · exact Nat.mul_le_mul_left 1000 (by omega)
    · have h := ih (k + 1) t ht
      have heq : k + 1 + m = k + (m + 1) := by omega
      rwa [heq] at h

/-- Witness for C8 at concrete inputs: 1500 committed grants at instants
1000, 2000, …, 1500000 exhaust the window starting at 0; the next check at
instant 86400000 (still inside the window) is denied; at 86400001 the window
has aged out, the counter resets and the caller is granted. -/
theorem rate_limiter_daily_limit_and_reset_witness :
    (⟨0, 0, 0⟩ : RateLimitState).dailyUsage = 0 ∧
    dayTimes.length = RATE_requestsPerDay ∧
    (∀ t ∈ dayTimes,
      t ≤ (⟨0, 0, 0⟩ : RateLimitState).dailyResetTime + 24 * 60 * 60 * 1000) ∧
    (runAttempts dayTimes ⟨0, 0, 0⟩).2 = List.replicate dayTimes.length true ∧
    (86400000 : Nat) ≤ (⟨0, 0, 0⟩ : RateLimitState).dailyResetTime
      + 24 * 60 * 60 * 1000 ∧
    (canMakeRequest 86400000 (runAttempts dayTimes ⟨0, 0, 0⟩).1).1 = false ∧
    ((⟨1500000, 1500, 0⟩ : RateLimitState).dailyResetTime
      + 24 * 60 * 60 * 1000 < 86400001) ∧
    canMakeRequest 86400001 ⟨1500000, 1500, 0⟩
      = (decide ((86400001 : Nat) - (⟨1500000, 1500, 0⟩ : RateLimitState).lastRequestTime
            ≥ RATE_minInterval),
          { (⟨1500000, 1500, 0⟩ : RateLimitState) with
              dailyUsage := 0
              dailyResetTime := 86400001 }) ∧
    decide ((86400001 : Nat) - (⟨1500000, 1500, 0⟩ : RateLimitState).lastRequestTime
      ≥ RATE_minInterval) = true := by
  simp only [dayTimes]
  have hrun := runAttempts_regularTimes 1500 0 (by omega)
  norm_num at hrun
  have hlen : (regularTimes 1500 0).length = RATE_requestsPerDay := by
    rw [regularTimes_length]
    rfl
  have hwin : ∀ t ∈ regularTimes 1500 0,
      t ≤ (⟨0, 0, 0⟩ : RateLimitState).dailyResetTime + 24 * 60 * 60 * 1000 := by
    intro t ht
    have h := regularTimes_le 1500 0 t ht
    show t ≤ 0 + 24 * 60 * 60 * 1000
    omega
  have hall : (runAttempts (regularTimes 1500 0) ⟨0, 0, 0⟩).2
      = List.replicate (regularTimes 1500 0).length true := by
    rw [hrun, regularTimes_length]
  refine ⟨trivial, hlen, hwin, hall, by decide, ?_, by decide, ?_, by decide⟩
  · exact rate_limiter_daily_limit_and_reset.1 (regularTimes 1500 0) 86400000
      ⟨0, 0, 0⟩ rfl hlen hwin hall (by decide)
  · exact rate_limiter_daily_limit_and_reset.2 86400001 ⟨1500000, 1500, 0⟩ (by decide)

theorem cacheSet_fresh_append (cache : FieldCache) (kv : String × CacheEntry)
    (hnodup : ((cache ++ [kv]).map Prod.fst).Nodup) :
    cacheSet kv.1 kv.2 cache = cache ++ [kv] := by
  have hnotmem : kv.1 ∉ cache.map Prod.fst := by
    rw [List.map_append] at hnodup
    rcases List.nodup_append.mp hnodup with ⟨-, -, hdisj⟩
    intro hmem
    exact hdisj hmem (by simp)
  have hfresh : cache.any (fun p => p.1 == kv.1) = false := by
    rw [List.any_eq_false]
    intro p hp hbeq
    rw [beq_iff_eq] at hbeq
    exact hnotmem (List.mem_map.mpr ⟨p, hp, hbeq⟩)
  unfold cacheSet
  rw [if_neg (by simp [hfresh])]

theorem putAndCleanup_chrono (cache : FieldCache) (kv : String × CacheEntry)
    (hnodup : ((cache ++ [kv]).map Prod.fst).Nodup)
    (hsorted : (cache ++ [kv]).Pairwise (fun a b => a.2.timestamp < b.2.timestamp))
    (hlen : cache.length ≤ CACHE_maxSize) :
    putAndCleanup cache kv = (cache ++ [kv]).drop (cache.length + 1 - CACHE_maxSize) := by
  unfold putAndCleanup
  rw [cacheSet_fresh_append cache kv hnodup]
  simp only [cleanupCache]
  by_cases hover : (cache ++ [kv]).length > CACHE_maxSize
  · rw [if_pos hover]
    have hsortid : (cache ++ [kv]).mergeSort (fun a b => a.2.timestamp ≤ b.2.timestamp)
        = cache ++ [kv] :=
      List.mergeSort_of_sorted (hsorted.imp (fun h => decide_eq_true (Nat.le_of_lt h)))
    rw [hsortid]
    have hlen1 : cache.length = CACHE_maxSize := by
      rw [List.length_append] at hover
      simp at hover
      omega
    have hrem : (cache ++ [kv]).length - CACHE_maxSize = 1 := by
      rw [List.length_append]
      simp
      omega
    rw [hrem]
    obtain ⟨p, rest, rfl⟩ : ∃ p rest, cache = p :: rest := by
      cases cache with
      | nil => exact absurd hlen1 (by decide)
      | cons p rest => exact ⟨p, rest, rfl⟩
    rw [List.cons_append, List.take_succ_cons, List.take_zero]
    rw [List.foldl_cons, List.foldl_nil]
    have hkeys : ∀ q ∈ rest ++ [kv], (decide (q.1 ≠ p.1)) = true := by
      intro q hq
      apply decide_eq_true
      rw [List.cons_append, List.map_cons, List.nodup_cons] at hnodup
      intro hqp
      exact hnodup.1 (List.mem_map.mpr ⟨q, hq, hqp⟩)
    rw [List.filter_cons_of_neg (by simp)]
    rw [List.filter_eq_self.mpr hkeys]
    have hidx : (p :: rest).length + 1 - CACHE_maxSize = 1 := by
      simp only [List.length_cons]
      simp only [List.length_cons] at hlen1
      omega
    rw [hidx, List.drop_succ_cons, List.drop_zero]
  · rw [if_neg hover]
    have hidx : cache.length + 1 - CACHE_maxSize = 0 := by
      rw [List.length_append] at hover
      simp at hover
      omega
    rw [hidx, List.drop_zero]

theorem foldl_putAndCleanup_chrono :
    ∀ (ps : List (String × CacheEntry)) (cache : FieldCache),
      ((cache ++ ps).map Prod.fst).Nodup →
      (cache ++ ps).Pairwise (fun a b => a.2.timestamp < b.2.timestamp) →
      cache.length ≤ CACHE_maxSize →
      ps.foldl putAndCleanup cache
        = (cache ++ ps).drop ((cache ++ ps).length - CACHE_maxSize) := by
  intro ps
  induction ps with
  | nil =>
    intro cache _ _ hlen
    have hidx : (cache ++ ([] : List (String × CacheEntry))).length - CACHE_maxSize
        = 0 := by
      simp
      omega
    rw [hidx, List.drop_zero, List.append_nil]
    rfl
  | cons kv ps ih =>
    intro cache hnodup hsorted hlen
    rw [List.foldl_cons]
    have hsub1 : (cache ++ [kv]).Sublist (cache ++ kv :: ps) := by
      rw [List.append_cons cache kv ps]
      exact List.sublist_append_left _ _
    have hnodup1 : ((cache ++ [kv]).map Prod.fst).Nodup :=
      List.Nodup.sublist (hsub1.map Prod.fst) hnodup
    have hsorted1 := List.Pairwise.sublist hsub1 hsorted
    rw [putAndCleanup_chrono cache kv hnodup1 hsorted1 hlen]
    rw [List.append_cons cache kv ps] at hnodup hsorted ⊢
    set d := cache.length + 1 - CACHE_maxSize with hd
    have hdle : d ≤ (cache ++ [kv]).length := by
      rw [List.length_append]
      simp
      omega
    have happ : (cache ++ [kv]).drop d ++ ps = ((cache ++ [kv]) ++ ps).drop d :=
      (List.drop_append_of_le_length hdle).symm
    have hnodup2 : (((cache ++ [kv]).drop d ++ ps).map Prod.fst).Nodup := by
      rw [happ, List.map_drop]
      exact List.Nodup.sublist (List.drop_sublist _ _) hnodup
    have hsorted2 : ((cache ++ [kv]).drop d ++ ps).Pairwise
        (fun a b => a.2.timestamp < b.2.timestamp) := by
      rw [happ]
      exact List.Pairwise.sublist (List.drop_sublist _ _) hsorted
    have hlen2 : ((cache ++ [kv]).drop d).length ≤ CACHE_maxSize := by
      rw [List.length_drop, List.length_append]
      simp
      omega
    rw [ih ((cache ++ [kv]).drop d) hnodup2 hsorted2 hlen2]
    rw [happ, List.drop_drop]
    have hidx : d + (((cache ++ [kv] ++ ps).drop d).length - CACHE_maxSize)
        = (cache ++ [kv] ++ ps).length - CACHE_maxSize := by
      simp only [List.length_drop, List.length_append, List.length_cons,
        List.length_nil]
      omega
    rw [hidx]

/-- Claim C6: starting from an empty cache, for a sequence of puts with
pairwise distinct keys and strictly increasing creation timestamps whose
count exceeds `maxSize`, the put-then-evict step keeps the cache at or below
`maxSize` after every put, the final cache holds exactly the `maxSize`
most-recently-created entries, and every evicted entry is strictly older than
every retained one. -/
theorem cache_capacity_eviction_retains_most_recent
    (ps : List (String × CacheEntry))
    (hkeys : (ps.map Prod.fst).Nodup)
    (hts : ps.Pairwise (fun a b => a.2.timestamp < b.2.timestamp))
    (hN : CACHE_maxSize < ps.length) :
    (∀ n : Nat, ((ps.take n).foldl putAndCleanup []).length ≤ CACHE_maxSize) ∧
    ps.foldl putAndCleanup [] = ps.drop (ps.length - CACHE_maxSize) ∧
    ∀ p ∈ ps.take (ps.length - CACHE_maxSize),
      ∀ q ∈ ps.drop (ps.length - CACHE_maxSize), p.2.timestamp < q.2.timestamp := by
  refine ⟨?_, ?_, ?_⟩
  · intro n
    have hfold := foldl_putAndCleanup_chrono (ps.take n) []
      (by
        have := List.Nodup.sublist ((List.take_sublist n ps).map Prod.fst) hkeys
        simpa using this)
      (by
        have := List.Pairwise.sublist (List.take_sublist n ps) hts
        simpa using this)
      (by simp)
    simp only [List.nil_append] at hfold
    rw [hfold, List.length_drop]
    omega
  · have hfold := foldl_putAndCleanup_chrono ps [] (by simpa using hkeys)
      (by simpa using hts) (by simp)
    simpa using hfold
  · intro p hp q hq
    rw [← List.take_append_drop (ps.length - CACHE_maxSize) ps] at hts
    rcases List.pairwise_append.mp hts with ⟨-, -, hcross⟩
    exact hcross p hp q hq

/-- Witness for C6 at a concrete input: 101 puts with distinct keys and
timestamps 0,…,100 from the empty cache. -/
theorem cache_capacity_eviction_witness :
    (capPuts.map Prod.fst).Nodup ∧
    capPuts.Pairwise (fun a b => a.2.timestamp < b.2.timestamp) ∧
    CACHE_maxSize < capPuts.length ∧
    (∀ n : Nat, ((capPuts.take n).foldl putAndCleanup []).length ≤ CACHE_maxSize) ∧
    capPuts.foldl putAndCleanup [] = capPuts.drop (capPuts.length - CACHE_maxSize) :=
  have h1 : (capPuts.map Prod.fst).Nodup := by decide
  have h2 : capPuts.Pairwise (fun a b => a.2.timestamp < b.2.timestamp) := by decide
  have h3 : CACHE_maxSize < capPuts.length := by decide
  ⟨h1, h2, h3,
    (cache_capacity_eviction_retains_most_recent capPuts h1 h2 h3).1,
    (cache_capacity_eviction_retains_most_recent capPuts h1 h2 h3).2.1⟩
